import Mathlib

/-!
Verification development for the spider-bot release-event pipeline
(crate `otaku`, plus its wiring in `background_tasks.rs`).

The Rust source is embedded shallowly: pure conversions become Lean
functions, the stream/supervisor loops become explicit recursion over the
finite list of messages a connection delivered, and the bounded mpsc
channel's `send` becomes appending to a queue list (tokio's `send` awaits
when the channel is full and never drops, so a completed send is an
append). Durations are modelled in milliseconds.
-/

deriving instance DecidableEq for Except

namespace Otaku

/-- Model of `prost_types::Timestamp`: `seconds: i64`, `nanos: i32`.
The fields are kept as unbounded `Int`; the `as u32` bit-cast performed by
`from_timestamp` is modelled explicitly with `emod 2^32`. -/
structure Timestamp where
  seconds : Int
  nanos : Int
deriving DecidableEq, Repr

/-- Modelled from the spec: the wire `episode` variant payload of the
upstream protobuf contract (§6), `{number, decimal, version: u32, extra:
string}`; the generated Rust struct `proto::api::v2::Episode` is not under
`src/`. Scalar protobuf fields are plain (non-optional) values. -/
structure WireEpisode where
  number : Nat
  decimal : Nat
  version : Nat
  extra : String
deriving DecidableEq, Repr

/-- Modelled from the spec: the wire `batch` variant payload
`{start: u32, end: u32}` (§6); the generated struct is not under `src/`.
`stop` stands for the wire field `end`, which is a Lean keyword. -/
structure WireBatch where
  start : Nat
  stop : Nat
deriving DecidableEq, Repr

/-- Modelled from the spec: the wire `variant` oneof
`{batch | episode | movie{}}` (§6); the generated Rust enum
`proto::api::v2::download_collection::Variant` is not under `src/`. -/
inductive WireVariant where
  | batch (b : WireBatch)
  | episode (e : WireEpisode)
  | movie
deriving DecidableEq, Repr

/-- Modelled from the spec: one wire download row (§6):
`{published_date: Timestamp, resolution: u32, comments, torrent,
file_name: string}`. Message-typed protobuf fields are `Option` in the
generated Rust, hence `published_date : Option Timestamp`. -/
structure WireDownload where
  published_date : Option Timestamp
  resolution : Nat
  comments : String
  torrent : String
  file_name : String
deriving DecidableEq, Repr

/-- Modelled from the spec: the pushed wire message
`proto::api::v2::DownloadCollection` (§6). `variant`, `created_at` and
`updated_at` are message-typed protobuf fields, hence `Option` in the
generated Rust (the code calls `.ok_or(MissingField ...)` on them). -/
structure WireDownloadCollection where
  title : String
  variant : Option WireVariant
  created_at : Option Timestamp
  updated_at : Option Timestamp
  downloads : List WireDownload
deriving DecidableEq, Repr

/-- Model of `chrono::DateTime<Utc>` as the pair that
`DateTime::from_timestamp` was given: whole seconds since the epoch and
the sub-second nanoseconds (which chrono accepts up to `1_999_999_999`,
the excess denoting a leap second). This pair determines the calendar
value uniquely, so structural equality coincides with chrono equality. -/
structure DateTimeUtc where
  secs : Int
  nsecs : Nat
deriving DecidableEq, Repr

/-- `domain`/`otaku` `Episode` (src/otaku/src/lib.rs:97). -/
structure Episode where
  number : Nat
  decimal : Option Nat
  version : Option Nat
  extra : Option String
deriving DecidableEq, Repr

/-- `otaku` `Download` (src/otaku/src/lib.rs:105); `resolution` is `u16`
in Rust, kept as `Nat` with the bound established by the conversion. -/
structure Download where
  published_date : DateTimeUtc
  resolution : Nat
  comments : String
  torrent : String
  file_name : String
deriving DecidableEq, Repr

/-- Model of `std::ops::RangeInclusive<u32>`; `stop` stands for the Rust
accessor `end()`. -/
structure RangeInclusive where
  start : Nat
  stop : Nat
deriving DecidableEq, Repr

/-- `otaku` `DownloadVariant` (src/otaku/src/lib.rs:66). -/
inductive DownloadVariant where
  | Batch (range : RangeInclusive)
  | Episode (e : Episode)
  | Movie
deriving DecidableEq, Repr

/-- `otaku` `DownloadCollection` (src/otaku/src/lib.rs:114). -/
structure DownloadCollection where
  title : String
  variant : DownloadVariant
  created_at : DateTimeUtc
  updated_at : DateTimeUtc
  downloads : List Download
deriving DecidableEq, Repr

/-- `otaku` `Subscriber` (src/otaku/src/lib.rs:129). Rust carries
`NonZeroU64` identifiers; here they are `Nat`, and the non-zero and
64-bit bounds are proved as theorems about the parser that produces
them. -/
inductive Subscriber where
  | User (id : Nat)
  | Channel (channel_id : Nat) (guild_id : Nat)
deriving DecidableEq, Repr

/-- `otaku` `Subscribed<T>` (src/otaku/src/lib.rs:123): the unit placed on
the outbound queue. -/
structure Subscribed (T : Type) where
  content : T
  subscribers : List Subscriber
deriving DecidableEq, Repr

/-- Kinds of `std::num::ParseIntError` relevant to u64/NonZeroU64
parsing. -/
inductive IntErrorKind where
  | Empty
  | InvalidDigit
  | PosOverflow
  | Zero
deriving DecidableEq, Repr

/-- `otaku` `ConversionError` (src/otaku/src/lib.rs:44). The `ParseInt`
constructor exists in the Rust enum but is never produced by the embedded
conversions; `TryFromIntError` carries no data in this model. -/
inductive ConversionError where
  | ParseInt (k : IntErrorKind)
  | TryFromIntError
  | MissingField (name : String)
  | InvalidTimeStamp (t : Timestamp)
deriving DecidableEq, Repr

/-- `otaku` `SubscriptionError` (src/otaku/src/lib.rs:56). `Sqlx` stands
for any store/transport failure. -/
inductive SubscriptionError where
  | Sqlx
  | ParseInt (k : IntErrorKind) (field : String)
  | Empty
deriving DecidableEq, Repr

/-- The base-10 value of a digit string, in unbounded arithmetic. -/
def digitsVal (digits : List Char) : Nat :=
  digits.foldl (fun acc ch => acc * 10 + (ch.toNat - '0'.toNat)) 0

/-- The digit-consuming core of Rust integer parsing, specialised to
`NonZeroU64`: one or more ASCII digits; a non-digit is `InvalidDigit`, a
value not fitting u64 is `PosOverflow` (checking the final unbounded
value is equivalent to Rust's per-step checked multiply and add, since
the accumulator is monotone), and `0` is `Zero`. -/
def parseDigitsNonZeroU64 (digits : List Char) : Except IntErrorKind Nat :=
  if digits.isEmpty then .error .InvalidDigit
  else if digits.all Char.isDigit then
    if 2 ^ 64 ≤ digitsVal digits then .error .PosOverflow
    else if digitsVal digits = 0 then .error .Zero
    else .ok (digitsVal digits)
  else .error .InvalidDigit

/-- Model of `<NonZeroU64 as FromStr>::from_str`: empty input is `Empty`,
an optional leading `+` is stripped, then the digits are parsed. -/
def parseNonZeroU64 (s : String) : Except IntErrorKind Nat :=
  match s.data with
  | [] => .error .Empty
  | c :: rest => parseDigitsNonZeroU64 (if c = '+' then rest else c :: rest)

/-- `i64` seconds value of `chrono::DateTime::<Utc>::MIN_UTC`. -/
def chronoMinSecs : Int := -8334601228800

/-- `i64` seconds value of `chrono::DateTime::<Utc>::MAX_UTC`. -/
def chronoMaxSecs : Int := 8210266876799

/-- The Rust `as u32` bit-cast applied to the `i32` `nanos` field. -/
def nanosAsU32 (n : Int) : Nat := (n % (2 ^ 32 : Int)).toNat

/-- Model of `chrono::DateTime::from_timestamp(secs, nsecs)`: `None` on
an invalid nanosecond (two seconds or more) or an out-of-range number of
seconds, otherwise the timestamp itself. -/
def dateTimeFromTimestamp (secs : Int) (nsecs : Nat) : Option DateTimeUtc :=
  if 2000000000 ≤ nsecs then none
  else if secs < chronoMinSecs then none
  else if chronoMaxSecs < secs then none
  else some ⟨secs, nsecs⟩

/-- `from_timestamp` (src/otaku/src/lib.rs:327): chrono conversion with
the sign-losing `nanos as u32` cast, `InvalidTimeStamp` on failure. -/
def from_timestamp (t : Timestamp) : Except ConversionError DateTimeUtc :=
  match dateTimeFromTimestamp t.seconds (nanosAsU32 t.nanos) with
  | some dt => .ok dt
  | none => .error (.InvalidTimeStamp t)

/-- `From<proto::api::v2::Episode> for Episode`
(src/otaku/src/lib.rs:298): `0` becomes `none` for `decimal`/`version`,
the empty string becomes `none` for `extra`. -/
def Episode.fromWire (val : WireEpisode) : Episode :=
  { number := val.number
    decimal := (some val.decimal).filter (fun d => d ≠ 0)
    version := (some val.version).filter (fun d => d ≠ 0)
    extra := (some val.extra).filter (fun s => ¬s.isEmpty) }

/-- `From<download_collection::Variant> for DownloadVariant`
(src/otaku/src/lib.rs:284). -/
def DownloadVariant.fromWire : WireVariant → DownloadVariant
  | .batch range => .Batch ⟨range.start, range.stop⟩
  | .episode ep => .Episode (Episode.fromWire ep)
  | .movie => .Movie

/-- Model of `iter().map(f).collect::<Result<Vec<_>, _>>()` (and of the
row-stream `try_collect` in `get_subscribers`): the first error aborts the
whole collection. -/
def collectResult (f : α → Except ε β) : List α → Except ε (List β)
  | [] => .ok []
  | a :: rest =>
    match f a with
    | .error e => .error e
    | .ok b =>
      match collectResult f rest with
      | .error e => .error e
      | .ok bs => .ok (b :: bs)

/-- `TryFrom<proto::api::v2::Download> for Download`
(src/otaku/src/lib.rs:309): `published_date` is required (`ok_or` + `?`),
converted with `from_timestamp` (`?`), and `resolution` is narrowed with
`u16::try_from` (`?`); the matches spell out the `?` early returns. -/
def Download.tryFromWire (value : WireDownload) : Except ConversionError Download :=
  match value.published_date with
  | none => .error (.MissingField "published_date")
  | some published_date_timestamp =>
    match from_timestamp published_date_timestamp with
    | .error e => .error e
    | .ok published_date =>
      if value.resolution < 65536 then
        .ok { published_date := published_date
              resolution := value.resolution
              comments := value.comments
              torrent := value.torrent
              file_name := value.file_name }
      else .error .TryFromIntError

/-- `TryFrom<proto::api::v2::DownloadCollection> for DownloadCollection`
(src/otaku/src/lib.rs:256), in the source's evaluation order: the three
required fields (`ok_or` + `?`), then the two header timestamps, then the
downloads collection; the matches spell out the `?` early returns. -/
def DownloadCollection.tryFromWire (value : WireDownloadCollection) :
    Except ConversionError DownloadCollection :=
  match value.variant with
  | none => .error (.MissingField "variant")
  | some download_variant =>
    match value.created_at with
    | none => .error (.MissingField "created_at")
    | some created_at_timestamp =>
      match value.updated_at with
      | none => .error (.MissingField "updated_at")
      | some updated_at_timestamp =>
        match from_timestamp created_at_timestamp with
        | .error e => .error e
        | .ok created_at =>
          match from_timestamp updated_at_timestamp with
          | .error e => .error e
          | .ok updated_at =>
            match collectResult Download.tryFromWire value.downloads with
            | .error e => .error e
            | .ok downloads =>
              .ok { title := value.title
                    variant := DownloadVariant.fromWire download_variant
                    created_at := created_at
                    updated_at := updated_at
                    downloads := downloads }

/-- Whether chrono accepts this wire timestamp after the `as u32` cast:
the success condition of `from_timestamp`. -/
def chronoOk (t : Timestamp) : Bool :=
  (dateTimeFromTimestamp t.seconds (nanosAsU32 t.nanos)).isSome

/-- A protobuf timestamp field that is present and chrono-valid. -/
def optTsOk : Option Timestamp → Bool
  | none => false
  | some ts => chronoOk ts

/-- One raw row returned by `queries/find_subscribed_channels.sql`:
textual `channel_id` and `guild_id` columns. -/
structure DbRow where
  channel_id : String
  guild_id : String
deriving DecidableEq, Repr

/-- The per-row body of the `and_then` closure in `get_subscribers`
(src/otaku/src/lib.rs:233): parse both identifiers as `NonZeroU64`,
tagging a parse failure with the field name. -/
def rowToSubscriber (record : DbRow) : Except SubscriptionError Subscriber :=
  match parseNonZeroU64 record.channel_id with
  | .error e => .error (.ParseInt e "channel_id")
  | .ok channel_id =>
    match parseNonZeroU64 record.guild_id with
    | .error e => .error (.ParseInt e "guild_id")
    | .ok guild_id => .ok (.Channel channel_id guild_id)

/-- `get_subscribers` (src/otaku/src/lib.rs:226), with the store's reply
for the queried title given as the row list (store reachability is
assumed; a transport failure would surface as `Sqlx` upstream of this
model). The row stream is collected with first-error-aborts semantics
(`try_collect` + `?`), then an empty result becomes `Empty`. -/
def get_subscribers (rows : List DbRow) : Except SubscriptionError (List Subscriber) :=
  match collectResult rowToSubscriber rows with
  | .error e => .error e
  | .ok channels => if channels.isEmpty then .error .Empty else .ok channels

/-- The observable outcome of `process_message` on one wire message; the
constructors correspond to its early returns and its send. -/
inductive PumpOutcome where
  | incomplete
  | conversionFailed (e : ConversionError)
  | resolutionFailed (e : SubscriptionError)
  | sent (event : Subscribed DownloadCollection)
deriving DecidableEq, Repr

/-- `process_message` (src/otaku/src/lib.rs:187), instrumented with which
exit it takes, in the source's order: the completeness check on the raw
wire message first, then `try_into`, then `get_subscribers`, then the
send. `db` maps a title to the store's rows for it. -/
def process_message_outcome (db : String → List DbRow)
    (incoming_message : WireDownloadCollection) : PumpOutcome :=
  if ¬incoming_message.downloads.any (fun download => download.resolution == 1080) then
    .incomplete
  else
    match DownloadCollection.tryFromWire incoming_message with
    | .error e => .conversionFailed e
    | .ok collection =>
      match get_subscribers (db collection.title) with
      | .error e => .resolutionFailed e
      | .ok subscribers => .sent { content := collection, subscribers := subscribers }

/-- The value `process_message` hands to `sender.send`, if any. -/
def process_message (db : String → List DbRow) (msg : WireDownloadCollection) :
    Option (Subscribed DownloadCollection) :=
  match process_message_outcome db msg with
  | .sent event => some event
  | _ => none

/-- Modelled from the spec: §4.5's step order — convert first, and only
after a successful conversion apply the completeness filter to the
converted event (`is_ready(event: &ReleaseEvent)`). Stated for
comparison with `process_message_outcome`, which embeds the source. -/
def process_message_specOrder (db : String → List DbRow)
    (msg : WireDownloadCollection) : PumpOutcome :=
  match DownloadCollection.tryFromWire msg with
  | .error e => .conversionFailed e
  | .ok collection =>
    if ¬collection.downloads.any (fun download => download.resolution == 1080) then
      .incomplete
    else
      match get_subscribers (db collection.title) with
      | .error e => .resolutionFailed e
      | .ok subscribers => .sent { content := collection, subscribers := subscribers }

/-- The read-process loop of `handle_stream` (src/otaku/src/lib.rs:178)
over the messages one connection delivered, threading the outbound queue:
a completed `sender.send` appends one event. -/
def pump (db : String → List DbRow) :
    List WireDownloadCollection → List (Subscribed DownloadCollection) →
    List (Subscribed DownloadCollection)
  | [], queue => queue
  | msg :: rest, queue =>
    match process_message db msg with
    | none => pump db rest queue
    | some event => pump db rest (queue ++ [event])

/-- How one connection's stream ended: the server closed it
(`message()` returned `None`) or a transport/protocol error surfaced. -/
inductive StreamTermination where
  | closed
  | failed (status : String)
deriving DecidableEq, Repr

/-- `ConnectionError` (src/otaku/src/lib.rs:36). -/
inductive ConnectionError where
  | Status (s : String)
  | Closed
deriving DecidableEq, Repr

/-- The value `handle_stream` returns to `subscribe`: its loop exits only
via `return Err(ConnectionError::Closed)` on end-of-stream or via `?` on
a stream error — there is no `Ok` exit path. -/
def handle_stream_result (term : StreamTermination) : Except ConnectionError Unit :=
  match term with
  | .closed => .error .Closed
  | .failed s => .error (.Status s)

/-- `MAX_BACKOFF` (src/otaku/src/lib.rs:21), in milliseconds. -/
def MAX_BACKOFF : Nat := 30000

/-- `BACKOFF_INTERVAL` (src/otaku/src/lib.rs:22), in milliseconds. -/
def BACKOFF_INTERVAL : Nat := 125

/-- `RECONNECT_INTERVAL` (src/otaku/src/lib.rs:23), in milliseconds. -/
def RECONNECT_INTERVAL : Nat := 5000

/-- The sleeps `connect_with_backoff` (src/otaku/src/lib.rs:151) performs
given the current `backoff` value and the number of failed attempts still
ahead: each failure sleeps `backoff` then doubles it, capped at
`MAX_BACKOFF`. -/
def connectWaitsGo : Nat → Nat → List Nat
  | 0, _ => []
  | Nat.succ n, backoff => backoff :: connectWaitsGo n (min (backoff * 2) MAX_BACKOFF)

/-- The sleeps of one `connect_with_backoff` call that fails `k` times
before succeeding; the local `backoff` starts at `BACKOFF_INTERVAL`. -/
def connectWaits (k : Nat) : List Nat := connectWaitsGo k BACKOFF_INTERVAL

/-- The backoff value in force at the i-th consecutive failure (0-based)
of one `connect_with_backoff` call. -/
def backoffSeq : Nat → Nat
  | 0 => BACKOFF_INTERVAL
  | Nat.succ n => min (backoffSeq n * 2) MAX_BACKOFF

/-- `error!` log then `tokio::time::sleep(RECONNECT_INTERVAL)` happen in
`subscribe` (src/otaku/src/lib.rs:144) exactly when `handle_stream`
returned an `Err`; an `Ok` return would skip the sleep. -/
def supervisor_cooldown (r : Except ConnectionError Unit) : Nat :=
  match r with
  | .error _ => RECONNECT_INTERVAL
  | .ok _ => 0

/-- What the environment does during one iteration of `subscribe`'s loop:
how many connect attempts fail before one succeeds, which messages the
stream then delivers, and how it ends. -/
structure EpisodeInput where
  connectFailures : Nat
  msgs : List WireDownloadCollection
  term : StreamTermination

/-- The observable trace of one iteration of `subscribe`'s loop. -/
structure EpisodeTrace where
  waits : List Nat
  queued : List (Subscribed DownloadCollection)
  streamResult : Except ConnectionError Unit
  cooldown : Nat

/-- One iteration of `subscribe`'s loop (src/otaku/src/lib.rs:142): a
fresh `connect_with_backoff` call, then `handle_stream` over the
delivered messages, then the conditional reconnect sleep. -/
def supervisor_episode (db : String → List DbRow) (e : EpisodeInput) : EpisodeTrace :=
  { waits := connectWaits e.connectFailures
    queued := pump db e.msgs []
    streamResult := handle_stream_result e.term
    cooldown := supervisor_cooldown (handle_stream_result e.term) }

/-- Any finite prefix of `subscribe`'s unconditional `loop`: the body is
total and always runs again, so every episode list is fully traced. -/
def subscribe_run (db : String → List DbRow) (episodes : List EpisodeInput) :
    List EpisodeTrace :=
  episodes.map (supervisor_episode db)

/-! Concrete inputs used by the witness theorems. -/

/-- The epoch timestamp. -/
def ts0 : Timestamp := ⟨0, 0⟩

/-- Scenario A's wire message: an episode with a 720p and a 1080p
download. -/
def msg0 : WireDownloadCollection :=
  { title := "Show A"
    variant := some (.episode ⟨5, 0, 0, ""⟩)
    created_at := some ts0
    updated_at := some ts0
    downloads := [⟨some ts0, 720, "c", "t", "f"⟩, ⟨some ts0, 1080, "c", "t", "f"⟩] }

/-- A store holding two channel rows for every title. -/
def db0 : String → List DbRow := fun _ => [⟨"1", "2"⟩, ⟨"3", "4"⟩]

/-- A store holding no rows for any title. -/
def dbEmpty : String → List DbRow := fun _ => []

/-- A wire message that is both incomplete (no 1080p download) and
unconvertible (`created_at` missing). -/
def badMsg : WireDownloadCollection :=
  { title := "Show B"
    variant := some .movie
    created_at := none
    updated_at := some ts0
    downloads := [⟨some ts0, 720, "c", "t", "f"⟩] }

/-- A wire message missing its `variant`. -/
def noVariantMsg : WireDownloadCollection :=
  { title := "Show C"
    variant := none
    created_at := some ts0
    updated_at := some ts0
    downloads := [] }

/-- A plain wire download row. -/
def d0 : WireDownload := ⟨some ts0, 1080, "c", "t", "f"⟩

/-- The converted form of `msg0`. -/
def c0 : DownloadCollection :=
  { title := "Show A"
    variant := .Episode ⟨5, none, none, none⟩
    created_at := ⟨0, 0⟩
    updated_at := ⟨0, 0⟩
    downloads := [⟨⟨0, 0⟩, 720, "c", "t", "f"⟩, ⟨⟨0, 0⟩, 1080, "c", "t", "f"⟩] }

/-! Helper lemmas shared by the claim theorems. -/

theorem collectResult_ok_forall2 {α β ε : Type} {f : α → Except ε β} :
    ∀ (l : List α) (l' : List β), collectResult f l = .ok l' →
      List.Forall₂ (fun a b => f a = .ok b) l l' := by
  intro l
  induction l with
  | nil =>
    intro l' h
    simp only [collectResult] at h
    cases h
    exact List.Forall₂.nil
  | cons a rest ih =>
    intro l' h
    simp only [collectResult] at h
    split at h
    · cases h
    · rename_i b hfa
      split at h
      · cases h
      · rename_i bs hrest
        cases h
        exact List.Forall₂.cons hfa (ih bs hrest)

theorem collectResult_ok_of_all {α β ε : Type} {f : α → Except ε β} :
    ∀ (l : List α), (∀ a ∈ l, (f a).isOk = true) →
      ∃ l', collectResult f l = .ok l' := by
  intro l
  induction l with
  | nil => exact fun _ => ⟨[], rfl⟩
  | cons a rest ih =>
    intro hall
    have ha : (f a).isOk = true := hall a (List.mem_cons_self a rest)
    obtain ⟨b, hb⟩ : ∃ b, f a = .ok b := by
      cases hfa : f a with
      | error e => rw [hfa] at ha; cases ha
      | ok b => exact ⟨b, rfl⟩
    obtain ⟨bs, hbs⟩ := ih fun x hx => hall x (List.mem_cons_of_mem a hx)
    exact ⟨b :: bs, by simp only [collectResult, hb, hbs]⟩

theorem collectResult_error_shape {α β ε : Type} {f : α → Except ε β} :
    ∀ (l : List α) (e : ε), collectResult f l = .error e →
      ∃ a ∈ l, f a = .error e := by
  intro l
  induction l with
  | nil =>
    intro e h
    simp only [collectResult] at h
    cases h
  | cons a rest ih =>
    intro e h
    simp only [collectResult] at h
    split at h
    · rename_i hfa
      cases h
      exact ⟨a, List.mem_cons_self a rest, hfa⟩
    · rename_i b hfa
      split at h
      · rename_i hrest
        cases h
        obtain ⟨x, hx, hfx⟩ := ih e hrest
        exact ⟨x, List.mem_cons_of_mem a hx, hfx⟩
      · cases h

theorem forall2_exists_of_mem {α β : Type} {R : α → β → Prop} :
    ∀ {l : List α} {l' : List β}, List.Forall₂ R l l' →
      ∀ a ∈ l, ∃ b ∈ l', R a b := by
  intro l l' h
  induction h with
  | nil => intro a ha; cases ha
  | cons hr _ ih =>
    intro a ha
    rcases List.mem_cons.mp ha with rfl | ha
    · exact ⟨_, List.mem_cons_self _ _, hr⟩
    · obtain ⟨b, hb, hrb⟩ := ih a ha
      exact ⟨b, List.mem_cons_of_mem _ hb, hrb⟩

theorem parseDigitsNonZeroU64_ok {digits : List Char} {v : Nat}
    (h : parseDigitsNonZeroU64 digits = .ok v) : v ≠ 0 ∧ v < 2 ^ 64 := by
  unfold parseDigitsNonZeroU64 at h
  split at h
  · cases h
  · split at h
    · split at h
      · cases h
      · split at h
        · cases h
        · rename_i hover hzero
          cases h
          exact ⟨hzero, Nat.lt_of_not_le hover⟩
    · cases h

theorem parseNonZeroU64_ok {s : String} {v : Nat}
    (h : parseNonZeroU64 s = .ok v) : v ≠ 0 ∧ v < 2 ^ 64 := by
  unfold parseNonZeroU64 at h
  split at h
  · cases h
  · exact parseDigitsNonZeroU64_ok h

theorem rowToSubscriber_ok {r : DbRow} {s : Subscriber}
    (h : rowToSubscriber r = .ok s) :
    ∃ c g, s = .Channel c g ∧ parseNonZeroU64 r.channel_id = .ok c ∧
      parseNonZeroU64 r.guild_id = .ok g := by
  unfold rowToSubscriber at h
  split at h
  · cases h
  · rename_i c hc
    split at h
    · cases h
    · rename_i g hg
      cases h
      exact ⟨c, g, rfl, hc, hg⟩

theorem rowToSubscriber_error {r : DbRow} {e : SubscriptionError}
    (h : rowToSubscriber r = .error e) :
    ∃ k fld, e = .ParseInt k fld := by
  unfold rowToSubscriber at h
  split at h
  · rename_i k hk
    cases h
    exact ⟨k, "channel_id", rfl⟩
  · split at h
    · rename_i k hk
      cases h
      exact ⟨k, "guild_id", rfl⟩
    · cases h

theorem get_subscribers_ok {rows : List DbRow} {subs : List Subscriber}
    (h : get_subscribers rows = .ok subs) :
    collectResult rowToSubscriber rows = .ok subs ∧ subs ≠ [] := by
  unfold get_subscribers at h
  split at h
  · cases h
  · rename_i channels hcoll
    split at h
    · cases h
    · rename_i hne
      cases h
      exact ⟨hcoll, by simpa using hne⟩

theorem from_timestamp_invalid {t : Timestamp} (h : chronoOk t = false) :
    from_timestamp t = .error (.InvalidTimeStamp t) := by
  unfold chronoOk at h
  unfold from_timestamp
  cases hdt : dateTimeFromTimestamp t.seconds (nanosAsU32 t.nanos) with
  | none => rfl
  | some dt => rw [hdt] at h; cases h

theorem from_timestamp_valid {t : Timestamp} (h : chronoOk t = true) :
    ∃ dt, from_timestamp t = .ok dt := by
  unfold chronoOk at h
  unfold from_timestamp
  cases hdt : dateTimeFromTimestamp t.seconds (nanosAsU32 t.nanos) with
  | none => rw [hdt] at h; cases h
  | some dt => exact ⟨dt, rfl⟩

theorem download_tryFromWire_resolution {d : WireDownload} {d' : Download}
    (h : Download.tryFromWire d = .ok d') : d'.resolution = d.resolution := by
  unfold Download.tryFromWire at h
  split at h
  · cases h
  · split at h
    · cases h
    · split at h
      · cases h
        rfl
      · cases h

theorem download_tryFromWire_isOk (d : WireDownload) :
    (Download.tryFromWire d).isOk = true ↔
      optTsOk d.published_date = true ∧ d.resolution < 65536 := by
  unfold Download.tryFromWire
  cases hpd : d.published_date with
  | none => simp [optTsOk, Except.isOk, Except.toBool]
  | some ts =>
    simp only [optTsOk, chronoOk, from_timestamp]
    cases hdt : dateTimeFromTimestamp ts.seconds (nanosAsU32 ts.nanos) with
    | none => simp [Except.isOk, Except.toBool]
    | some dt =>
      by_cases hres : d.resolution < 65536 <;>
        simp [hres, Except.isOk, Except.toBool]

theorem forall2_exists_of_mem_right {α β : Type} {R : α → β → Prop} :
    ∀ {l : List α} {l' : List β}, List.Forall₂ R l l' →
      ∀ b ∈ l', ∃ a ∈ l, R a b := by
  intro l l' h
  induction h with
  | nil => intro b hb; cases hb
  | cons hr _ ih =>
    intro b hb
    rcases List.mem_cons.mp hb with rfl | hb
    · exact ⟨_, List.mem_cons_self _ _, hr⟩
    · obtain ⟨a, ha, hra⟩ := ih b hb
      exact ⟨a, List.mem_cons_of_mem _ ha, hra⟩

theorem collectResult_isOk_iff {α β ε : Type} {f : α → Except ε β} (l : List α) :
    (collectResult f l).isOk = true ↔ ∀ a ∈ l, (f a).isOk = true := by
  constructor
  · intro h a ha
    cases hc : collectResult f l with
    | error e => rw [hc] at h; cases h
    | ok l' =>
      have hf2 := collectResult_ok_forall2 l l' hc
      obtain ⟨b, _, hb⟩ := forall2_exists_of_mem hf2 a ha
      rw [hb]
      rfl
  · intro h
    obtain ⟨l', hl'⟩ := collectResult_ok_of_all l h
    rw [hl']
    rfl

theorem tryFromWire_ok_parts {m : WireDownloadCollection} {c : DownloadCollection}
    (h : DownloadCollection.tryFromWire m = .ok c) :
    c.title = m.title ∧ collectResult Download.tryFromWire m.downloads = .ok c.downloads := by
  unfold DownloadCollection.tryFromWire at h
  split at h
  · cases h
  · split at h
    · cases h
    · split at h
      · cases h
      · split at h
        · cases h
        · split at h
          · cases h
          · split at h
            · cases h
            · rename_i hcoll
              cases h
              exact ⟨rfl, hcoll⟩

theorem tryFromWire_preserves_1080 {m : WireDownloadCollection}
    {c : DownloadCollection} (hconv : DownloadCollection.tryFromWire m = .ok c)
    (hany : m.downloads.any (fun d => d.resolution == 1080) = true) :
    c.downloads.any (fun d => d.resolution == 1080) = true := by
  obtain ⟨-, hcoll⟩ := tryFromWire_ok_parts hconv
  have hf2 := collectResult_ok_forall2 _ _ hcoll
  rw [List.any_eq_true] at hany ⊢
  obtain ⟨d, hd, hres⟩ := hany
  obtain ⟨d', hd', hfd⟩ := forall2_exists_of_mem hf2 d hd
  refine ⟨d', hd', ?_⟩
  rw [beq_iff_eq] at hres ⊢
  rw [download_tryFromWire_resolution hfd]
  exact hres

theorem process_message_some {db : String → List DbRow}
    {msg : WireDownloadCollection} {event : Subscribed DownloadCollection}
    (h : process_message db msg = some event) :
    msg.downloads.any (fun d => d.resolution == 1080) = true ∧
    ∃ c subs, DownloadCollection.tryFromWire msg = .ok c ∧
      get_subscribers (db c.title) = .ok subs ∧ event = ⟨c, subs⟩ := by
  unfold process_message at h
  cases hout : process_message_outcome db msg with
  | sent e =>
    rw [hout] at h
    have hev : event = e := by cases h; rfl
    subst hev
    unfold process_message_outcome at hout
    split at hout
    · cases hout
    · rename_i hcond
      constructor
      · exact not_not.mp hcond
      · split at hout
        · cases hout
        · rename_i c hc
          split at hout
          · cases hout
          · rename_i subs hsubs
            cases hout
            exact ⟨c, subs, hc, hsubs, rfl⟩
  | incomplete => rw [hout] at h; cases h
  | conversionFailed e => rw [hout] at h; cases h
  | resolutionFailed e => rw [hout] at h; cases h

theorem chronoOk_of_from_timestamp_ok {t : Timestamp} {dt : DateTimeUtc}
    (h : from_timestamp t = .ok dt) : chronoOk t = true := by
  unfold from_timestamp at h
  unfold chronoOk
  cases hdt : dateTimeFromTimestamp t.seconds (nanosAsU32 t.nanos) with
  | none => rw [hdt] at h; cases h
  | some d => rfl

theorem tryFromWire_ok_conditions {m : WireDownloadCollection} {c : DownloadCollection}
    (h : DownloadCollection.tryFromWire m = .ok c) :
    m.variant.isSome = true ∧ optTsOk m.created_at = true ∧
    optTsOk m.updated_at = true ∧
    ∀ dl ∈ m.downloads, optTsOk dl.published_date = true ∧ dl.resolution < 65536 := by
  unfold DownloadCollection.tryFromWire at h
  split at h
  · cases h
  · rename_i v hv
    split at h
    · cases h
    · rename_i cts hcr
      split at h
      · cases h
      · rename_i uts hup
        split at h
        · cases h
        · rename_i dtc hdtc
          split at h
          · cases h
          · rename_i dtu hdtu
            split at h
            · cases h
            · rename_i ds hcoll
              refine ⟨by rw [hv]; rfl,
                      by rw [hcr]; exact chronoOk_of_from_timestamp_ok hdtc,
                      by rw [hup]; exact chronoOk_of_from_timestamp_ok hdtu, ?_⟩
              intro dl hdl
              rw [← download_tryFromWire_isOk]
              exact (collectResult_isOk_iff m.downloads).mp (by rw [hcoll]; rfl) dl hdl

theorem tryFromWire_isOk_iff (m : WireDownloadCollection) :
    (DownloadCollection.tryFromWire m).isOk = true ↔
      m.variant.isSome = true ∧ optTsOk m.created_at = true ∧
      optTsOk m.updated_at = true ∧
      ∀ dl ∈ m.downloads, optTsOk dl.published_date = true ∧ dl.resolution < 65536 := by
  constructor
  · intro h
    cases hres : DownloadCollection.tryFromWire m with
    | error e => rw [hres] at h; cases h
    | ok c => exact tryFromWire_ok_conditions hres
  · intro ⟨hv, hcr, hup, hdls⟩
    obtain ⟨v, hv'⟩ := Option.isSome_iff_exists.mp hv
    cases hcro : m.created_at with
    | none => rw [hcro] at hcr; simp [optTsOk] at hcr
    | some tsc =>
      rw [hcro] at hcr
      have hkc : chronoOk tsc = true := hcr
      obtain ⟨dtc, hdtc⟩ := from_timestamp_valid hkc
      cases hupo : m.updated_at with
      | none => rw [hupo] at hup; simp [optTsOk] at hup
      | some tsu =>
        rw [hupo] at hup
        have hku : chronoOk tsu = true := hup
        obtain ⟨dtu, hdtu⟩ := from_timestamp_valid hku
        obtain ⟨ds, hds⟩ : ∃ ds, collectResult Download.tryFromWire m.downloads = .ok ds := by
          apply collectResult_ok_of_all
          intro dl hdl
          rw [download_tryFromWire_isOk]
          exact hdls dl hdl
        simp only [DownloadCollection.tryFromWire, hv', hcro, hupo, hdtc, hdtu, hds]
        rfl

/-! Claim theorems. -/

/-- C7: converting a wire `Episode` maps `decimal` and `version` to
`none` exactly when the wire value is `0` and to `some` of it otherwise,
maps `extra` to `none` exactly when the wire string is empty and to
`some` of it otherwise, and maps `number` unchanged. -/
theorem episode_fromWire_fields (e : WireEpisode) :
    (Episode.fromWire e).number = e.number ∧
    (Episode.fromWire e).decimal = (if e.decimal = 0 then none else some e.decimal) ∧
    (Episode.fromWire e).version = (if e.version = 0 then none else some e.version) ∧
    (Episode.fromWire e).extra = (if e.extra = "" then none else some e.extra) := by
  refine ⟨rfl, ?_, ?_, ?_⟩
  · by_cases h : e.decimal = 0 <;> simp [Episode.fromWire, Option.filter, h]
  · by_cases h : e.version = 0 <;> simp [Episode.fromWire, Option.filter, h]
  · by_cases h : e.extra = "" <;>
      simp [Episode.fromWire, Option.filter, h, String.isEmpty_iff]

theorem backoffSeq_lt8 : ∀ i < 8, backoffSeq i = 125 * 2 ^ i := by decide

theorem backoffSeq_ge8 : ∀ i, 8 ≤ i → backoffSeq i = 30000 := by
  intro i h
  induction i, h using Nat.le_induction with
  | base => decide
  | succ n hn ih =>
    show min (backoffSeq n * 2) MAX_BACKOFF = 30000
    rw [ih]
    decide

theorem connectWaitsGo_backoffSeq :
    ∀ (n j : Nat), connectWaitsGo n (backoffSeq j) =
      (List.range n).map (fun i => backoffSeq (j + i)) := by
  intro n
  induction n with
  | zero => intro j; rfl
  | succ n ih =>
    intro j
    have hstep : connectWaitsGo (n + 1) (backoffSeq j) =
        backoffSeq j :: connectWaitsGo n (backoffSeq (j + 1)) := rfl
    have htail : (List.range n).map (fun i => backoffSeq (j + 1 + i)) =
        (List.range n).map ((fun i => backoffSeq (j + i)) ∘ Nat.succ) := by
      apply List.map_congr_left
      intro a _
      simp only [Function.comp_apply]
      congr 1
      omega
    rw [hstep, ih (j + 1), htail, List.range_succ_eq_map, List.map_cons, List.map_map]
    simp

/-- C4: each `Connecting` episode's retry waits are 125ms doubling up to
16000ms for the first eight failures and 30000ms for every later failure,
and they depend only on that episode's failure count — the local
`backoff` variable of `connect_with_backoff` starts at `BACKOFF_INTERVAL`
afresh on every call, so the sequence restarts at 125ms after each
successful `Streaming` phase. -/
theorem connect_backoff_schedule (db : String → List DbRow) (e : EpisodeInput) :
    (supervisor_episode db e).waits =
      (List.range e.connectFailures).map
        (fun i => if i < 8 then 125 * 2 ^ i else 30000) := by
  show connectWaits e.connectFailures = _
  unfold connectWaits
  have h0 : BACKOFF_INTERVAL = backoffSeq 0 := rfl
  rw [h0, connectWaitsGo_backoffSeq]
  apply List.map_congr_left
  intro i _
  simp only [Nat.zero_add]
  by_cases h : i < 8
  · rw [backoffSeq_lt8 i h, if_pos h]
  · rw [backoffSeq_ge8 i (Nat.le_of_not_lt h), if_neg h]

theorem pump_append (db : String → List DbRow) :
    ∀ (msgs : List WireDownloadCollection) (queue : List (Subscribed DownloadCollection)),
      pump db msgs queue = queue ++ msgs.filterMap (process_message db) := by
  intro msgs
  induction msgs with
  | nil => intro queue; simp [pump]
  | cons m rest ih =>
    intro queue
    cases hm : process_message db m with
    | none => simp only [pump, hm, List.filterMap_cons, ih]
    | some e =>
      simp only [pump, hm, List.filterMap_cons, ih]
      simp

theorem pump_subseq (db : String → List DbRow) :
    ∀ (msgs : List WireDownloadCollection),
      ∃ sub, List.Sublist sub msgs ∧
        List.Forall₂ (fun m e => process_message db m = some e) sub
          (msgs.filterMap (process_message db)) := by
  intro msgs
  induction msgs with
  | nil => exact ⟨[], List.Sublist.refl _, List.Forall₂.nil⟩
  | cons m rest ih =>
    obtain ⟨sub, hsub, hf⟩ := ih
    cases hm : process_message db m with
    | none =>
      refine ⟨sub, hsub.cons m, ?_⟩
      simpa [List.filterMap_cons, hm] using hf
    | some e =>
      refine ⟨m :: sub, hsub.cons₂ m, ?_⟩
      have hcons : List.Forall₂ (fun m e => process_message db m = some e)
          (m :: sub) (e :: rest.filterMap (process_message db)) :=
        List.Forall₂.cons hm hf
      simpa [List.filterMap_cons, hm] using hcons

/-- C8: within one connection, the read-process loop handles messages one
at a time, so the events pushed onto the outbound queue are exactly the
order-preserving image of a sublist of the wire messages (queue arrival
order equals wire order), and a send appends — no qualifying event is
dropped. -/
theorem stream_order_preserved (db : String → List DbRow)
    (msgs : List WireDownloadCollection) (queue : List (Subscribed DownloadCollection)) :
    pump db msgs queue = queue ++ msgs.filterMap (process_message db) ∧
    ∃ sub, List.Sublist sub msgs ∧
      List.Forall₂ (fun m e => process_message db m = some e) sub
        (msgs.filterMap (process_message db)) :=
  ⟨pump_append db msgs queue, pump_subseq db msgs⟩

/-- C9: `handle_stream` has no `Ok` exit — every `Streaming` phase ends
with a `ConnectionError` (clean closure included) — so `subscribe` sleeps
the fixed 5000ms `RECONNECT_INTERVAL` after every phase and then
re-enters `Connecting`; the loop traces every episode of any schedule,
never terminating on its own. -/
theorem supervisor_cooldown_fixed (db : String → List DbRow)
    (episodes : List EpisodeInput) :
    (subscribe_run db episodes).length = episodes.length ∧
    ∀ t ∈ subscribe_run db episodes,
      t.cooldown = RECONNECT_INTERVAL ∧ ∃ err, t.streamResult = .error err := by
  constructor
  · simp [subscribe_run]
  · intro t ht
    simp only [subscribe_run, List.mem_map] at ht
    obtain ⟨e, _, rfl⟩ := ht
    constructor
    · show supervisor_cooldown (handle_stream_result e.term) = RECONNECT_INTERVAL
      cases e.term <;> rfl
    · cases hterm : e.term with
      | closed =>
        exact ⟨.Closed, by simp [supervisor_episode, handle_stream_result, hterm]⟩
      | failed s =>
        exact ⟨.Status s, by simp [supervisor_episode, handle_stream_result, hterm]⟩

/-- Witness for C9: a concrete cleanly-closed episode still incurs the
5000ms cool-down, and its stream result is an error. -/
theorem supervisor_cooldown_fixed_witness :
    (supervisor_episode dbEmpty ⟨0, [], .closed⟩).cooldown = RECONNECT_INTERVAL ∧
    ∃ err, (supervisor_episode dbEmpty ⟨0, [], .closed⟩).streamResult = .error err :=
  (supervisor_cooldown_fixed dbEmpty [⟨0, [], .closed⟩]).2
    (supervisor_episode dbEmpty ⟨0, [], .closed⟩) (List.mem_singleton.mpr rfl)

/-- C3: every event the pipeline hands to the queue's send has at least
one download with resolution 1080 and a non-empty subscribers list. -/
theorem queue_invariant (db : String → List DbRow) (msg : WireDownloadCollection)
    (event : Subscribed DownloadCollection)
    (h : process_message db msg = some event) :
    event.content.downloads.any (fun d => d.resolution == 1080) = true ∧
    event.subscribers ≠ [] := by
  obtain ⟨hany, c, subs, hconv, hsubs, rfl⟩ := process_message_some h
  exact ⟨tryFromWire_preserves_1080 hconv hany, (get_subscribers_ok hsubs).2⟩

/-- Witness for C3 on Scenario A's message and a two-row store. -/
theorem queue_invariant_witness :
    (Subscribed.mk c0 [.Channel 1 2, .Channel 3 4]).content.downloads.any
      (fun d => d.resolution == 1080) = true ∧
    (Subscribed.mk c0 [.Channel 1 2, .Channel 3 4]).subscribers ≠ [] :=
  queue_invariant db0 msg0 _ (by decide)

/-- C10: every subscriber the resolver ever returns is a `Channel` handle
whose `channel_id` and `guild_id` are non-zero and fit in 64 bits; the
`User` constructor is never produced. -/
theorem subscribers_channel_only (rows : List DbRow) (subs : List Subscriber)
    (h : get_subscribers rows = .ok subs) :
    ∀ s ∈ subs, ∃ channel_id guild_id,
      s = Subscriber.Channel channel_id guild_id ∧
      channel_id ≠ 0 ∧ channel_id < 2 ^ 64 ∧ guild_id ≠ 0 ∧ guild_id < 2 ^ 64 := by
  obtain ⟨hcoll, -⟩ := get_subscribers_ok h
  have hf2 := collectResult_ok_forall2 _ _ hcoll
  intro s hs
  obtain ⟨r, -, hr⟩ := forall2_exists_of_mem_right hf2 s hs
  obtain ⟨cid, gid, rfl, hc, hg⟩ := rowToSubscriber_ok hr
  obtain ⟨hc0, hcb⟩ := parseNonZeroU64_ok hc
  obtain ⟨hg0, hgb⟩ := parseNonZeroU64_ok hg
  exact ⟨cid, gid, rfl, hc0, hcb, hg0, hgb⟩

/-- Witness for C10 on the two-row store. -/
theorem subscribers_channel_only_witness :
    ∃ channel_id guild_id,
      Subscriber.Channel 1 2 = Subscriber.Channel channel_id guild_id ∧
      channel_id ≠ 0 ∧ channel_id < 2 ^ 64 ∧ guild_id ≠ 0 ∧ guild_id < 2 ^ 64 :=
  subscribers_channel_only (db0 "Show A") [.Channel 1 2, .Channel 3 4]
    (by decide) (.Channel 1 2) (by decide)

/-- C5: the resolver never partially succeeds — on success every store
row contributed one parsed subscriber, in order, and the list is
non-empty; the distinct `Empty` error occurs exactly when the store
returned zero rows; and whenever any row's identifier fails to parse as a
non-zero 64-bit integer the whole lookup fails with a `ParseInt` error. -/
theorem resolver_all_or_nothing (rows : List DbRow) :
    (∀ subs, get_subscribers rows = .ok subs →
       subs ≠ [] ∧ List.Forall₂ (fun r s => rowToSubscriber r = .ok s) rows subs) ∧
    (get_subscribers rows = .error .Empty ↔ rows = []) ∧
    ((∃ r ∈ rows, (rowToSubscriber r).isOk = false) →
       ∃ k fld, get_subscribers rows = .error (.ParseInt k fld)) := by
  refine ⟨?_, ?_, ?_⟩
  · intro subs h
    obtain ⟨hcoll, hne⟩ := get_subscribers_ok h
    exact ⟨hne, collectResult_ok_forall2 _ _ hcoll⟩
  · constructor
    · intro h
      unfold get_subscribers at h
      split at h
      · rename_i e hcoll
        cases h
        obtain ⟨r, -, hr⟩ := collectResult_error_shape _ _ hcoll
        obtain ⟨k, fld, hk⟩ := rowToSubscriber_error hr
        cases hk
      · rename_i channels hcoll
        split at h
        · rename_i hemp
          have hf2 := collectResult_ok_forall2 _ _ hcoll
          rw [List.isEmpty_iff] at hemp
          subst hemp
          cases hf2
          rfl
        · cases h
    · intro h
      subst h
      rfl
  · intro ⟨r, hr, hfail⟩
    cases hcoll : collectResult rowToSubscriber rows with
    | ok subs =>
      have hf2 := collectResult_ok_forall2 _ _ hcoll
      obtain ⟨s, -, hs⟩ := forall2_exists_of_mem hf2 r hr
      rw [hs] at hfail
      cases hfail
    | error e =>
      obtain ⟨r', -, hr'⟩ := collectResult_error_shape _ _ hcoll
      obtain ⟨k, fld, rfl⟩ := rowToSubscriber_error hr'
      refine ⟨k, fld, ?_⟩
      unfold get_subscribers
      rw [hcoll]

/-- Witness for C5: success on two good rows, `Empty` on zero rows, and a
whole-lookup `ParseInt` failure when one row carries a zero id. -/
theorem resolver_all_or_nothing_witness :
    ([Subscriber.Channel 1 2, Subscriber.Channel 3 4] ≠ [] ∧
      List.Forall₂ (fun r s => rowToSubscriber r = .ok s) (db0 "Show A")
        [Subscriber.Channel 1 2, Subscriber.Channel 3 4]) ∧
    get_subscribers [] = .error .Empty ∧
    ∃ k fld, get_subscribers [⟨"0", "2"⟩] = .error (.ParseInt k fld) :=
  ⟨(resolver_all_or_nothing (db0 "Show A")).1 _ (by decide),
   (resolver_all_or_nothing []).2.1.mpr rfl,
   (resolver_all_or_nothing [⟨"0", "2"⟩]).2.2 ⟨⟨"0", "2"⟩, by decide, by decide⟩⟩

/-- C1: a wire message with a 1080p download that converts cleanly, whose
title has at least one store row, all rows parsing to non-zero handles,
is forwarded as exactly one queued event whose content is the converted
collection and whose recipients are the store's rows parsed in order. -/
theorem qualifying_message_enqueued (db : String → List DbRow)
    (msg : WireDownloadCollection) (c : DownloadCollection)
    (h1080 : msg.downloads.any (fun d => d.resolution == 1080) = true)
    (hconv : DownloadCollection.tryFromWire msg = .ok c)
    (hrows : db c.title ≠ [])
    (hparse : ∀ r ∈ db c.title, (rowToSubscriber r).isOk = true) :
    ∃ subs, process_message db msg = some ⟨c, subs⟩ ∧ subs ≠ [] ∧
      List.Forall₂ (fun r s => rowToSubscriber r = .ok s) (db c.title) subs := by
  obtain ⟨subs, hsubs⟩ := collectResult_ok_of_all _ hparse
  have hf2 := collectResult_ok_forall2 _ _ hsubs
  have hsubs_ne : subs ≠ [] := by
    intro hnil
    subst hnil
    have hlen := List.Forall₂.length_eq hf2
    rw [List.length_nil, List.length_eq_zero] at hlen
    exact hrows hlen
  have hget : get_subscribers (db c.title) = .ok subs := by
    unfold get_subscribers
    rw [hsubs]
    simp [hsubs_ne]
  have hout : process_message_outcome db msg = .sent ⟨c, subs⟩ := by
    unfold process_message_outcome
    rw [if_neg (by simp [h1080])]
    simp only [hconv, hget]
  refine ⟨subs, ?_, hsubs_ne, hf2⟩
  unfold process_message
  rw [hout]

/-- Witness for C1 on Scenario A: the message with a 720p and a 1080p
download and a two-row store yields exactly one queued event. -/
theorem qualifying_message_enqueued_witness :
    ∃ subs,
      process_message db0 msg0 = some (Subscribed.mk c0 subs) ∧
      subs ≠ [] ∧
      List.Forall₂ (fun r s => rowToSubscriber r = .ok s)
        (db0 c0.title) subs :=
  qualifying_message_enqueued db0 msg0 c0 (by decide) (by decide) (by decide)
    (by decide)

/-- C2 counterexample: the claim says the converter runs first and the
completeness filter is applied only to the successfully converted event;
on a message that is both incomplete and unconvertible the code's
filter-first order is observable — it reports `incomplete` where the
claimed order would report the conversion failure. -/
theorem pump_order_counterexample :
    ¬∀ (db : String → List DbRow) (msg : WireDownloadCollection),
        process_message_outcome db msg = process_message_specOrder db msg := by
  intro hall
  exact absurd (hall dbEmpty badMsg) (by decide)

/-- C2 amended: the Stream Pump applies the completeness filter first, to
the raw wire message (comparing the wire `u32` resolution to 1080), and
skips failing messages with no conversion attempted; only messages
passing the filter are converted, a conversion failure merely skips the
message, and in both cases the read loop continues with the next message
— the connection is not torn down. -/
theorem pump_filter_first (db : String → List DbRow) (msg : WireDownloadCollection) :
    (msg.downloads.any (fun d => d.resolution == 1080) = false →
       process_message_outcome db msg = .incomplete) ∧
    (∀ e, msg.downloads.any (fun d => d.resolution == 1080) = true →
       DownloadCollection.tryFromWire msg = .error e →
       process_message_outcome db msg = .conversionFailed e) ∧
    (∀ rest queue, process_message db msg = none →
       pump db (msg :: rest) queue = pump db rest queue) := by
  refine ⟨?_, ?_, ?_⟩
  · intro hfalse
    unfold process_message_outcome
    rw [if_pos (by simp [hfalse])]
  · intro e htrue herr
    unfold process_message_outcome
    rw [if_neg (by simp [htrue])]
    rw [herr]
  · intro rest queue hnone
    show (match process_message db msg with
          | none => pump db rest queue
          | some event => pump db rest (queue ++ [event])) = pump db rest queue
    rw [hnone]

/-- Witness for C2's amended claim on the incomplete, unconvertible
message: it is skipped as incomplete and the loop continues. -/
theorem pump_filter_first_witness :
    process_message_outcome dbEmpty badMsg = .incomplete ∧
    pump dbEmpty (badMsg :: []) [] = pump dbEmpty [] [] :=
  ⟨(pump_filter_first dbEmpty badMsg).1 (by decide),
   (pump_filter_first dbEmpty badMsg).2.2 [] [] (by decide)⟩

/-- C6: the converter fails with `MissingField` when `variant`,
`created_at` or `updated_at` is absent on the wire message or a download
lacks its `published_date` (the wire variant payloads have no optional
sub-fields, so the nested-sub-field case arises only for downloads);
fails with `InvalidTimeStamp` when a seconds/nanos pair is not a valid
chrono calendar timestamp; fails with the out-of-range `TryFromIntError`
when a download's resolution does not fit `u16`; and succeeds exactly
when all required fields are present, all timestamps valid and all
resolutions in range. -/
theorem converter_error_taxonomy (m : WireDownloadCollection) (d : WireDownload) :
    (m.variant = none →
       DownloadCollection.tryFromWire m = .error (.MissingField "variant")) ∧
    (∀ v, m.variant = some v → m.created_at = none →
       DownloadCollection.tryFromWire m = .error (.MissingField "created_at")) ∧
    (∀ v tsc, m.variant = some v → m.created_at = some tsc → m.updated_at = none →
       DownloadCollection.tryFromWire m = .error (.MissingField "updated_at")) ∧
    (∀ v tsc tsu, m.variant = some v → m.created_at = some tsc →
       m.updated_at = some tsu → chronoOk tsc = false →
       DownloadCollection.tryFromWire m = .error (.InvalidTimeStamp tsc)) ∧
    (∀ v tsc tsu, m.variant = some v → m.created_at = some tsc →
       m.updated_at = some tsu → chronoOk tsc = true → chronoOk tsu = false →
       DownloadCollection.tryFromWire m = .error (.InvalidTimeStamp tsu)) ∧
    (d.published_date = none →
       Download.tryFromWire d = .error (.MissingField "published_date")) ∧
    (∀ ts, d.published_date = some ts → chronoOk ts = false →
       Download.tryFromWire d = .error (.InvalidTimeStamp ts)) ∧
    (∀ ts, d.published_date = some ts → chronoOk ts = true →
       65536 ≤ d.resolution → Download.tryFromWire d = .error .TryFromIntError) ∧
    ((DownloadCollection.tryFromWire m).isOk = true ↔
       m.variant.isSome = true ∧ optTsOk m.created_at = true ∧
       optTsOk m.updated_at = true ∧
       ∀ dl ∈ m.downloads, optTsOk dl.published_date = true ∧ dl.resolution < 65536) := by
  refine ⟨?_, ?_, ?_, ?_, ?_, ?_, ?_, ?_, tryFromWire_isOk_iff m⟩
  · intro hv
    simp only [DownloadCollection.tryFromWire, hv]
  · intro v hv hcr
    simp only [DownloadCollection.tryFromWire, hv, hcr]
  · intro v tsc hv hcr hup
    simp only [DownloadCollection.tryFromWire, hv, hcr, hup]
  · intro v tsc tsu hv hcr hup hkc
    simp only [DownloadCollection.tryFromWire, hv, hcr, hup,
      from_timestamp_invalid hkc]
  · intro v tsc tsu hv hcr hup hkc hku
    obtain ⟨dtc, hdtc⟩ := from_timestamp_valid hkc
    simp only [DownloadCollection.tryFromWire, hv, hcr, hup, hdtc,
      from_timestamp_invalid hku]
  · intro hpd
    simp only [Download.tryFromWire, hpd]
  · intro ts hpd hk
    simp only [Download.tryFromWire, hpd, from_timestamp_invalid hk]
  · intro ts hpd hk hres
    obtain ⟨dt, hdt⟩ := from_timestamp_valid hk
    simp only [Download.tryFromWire, hpd, hdt]
    rw [if_neg (by omega)]

/-- Witness for C6: a message missing its `variant` yields exactly that
error, and Scenario A's fully-populated message converts successfully. -/
theorem converter_error_taxonomy_witness :
    DownloadCollection.tryFromWire noVariantMsg = .error (.MissingField "variant") ∧
    (DownloadCollection.tryFromWire msg0).isOk = true :=
  ⟨(converter_error_taxonomy noVariantMsg d0).1 rfl,
   (converter_error_taxonomy msg0 d0).2.2.2.2.2.2.2.2.mpr (by decide)⟩

end Otaku
